import Mathlib

/-!
Verification of the sales-analysis dashboard (src/analise.py): a shallow
embedding of its data-loading, filtering, metrics and alert logic, followed by
theorems about the embedded definitions.  Monetary values are modelled as
exact rationals; dates as year/month/day triples.
-/

namespace Analise

/-- Calendar date (year, month, day) as carried by the `data` column after
`pd.to_datetime` in `load_data` (src/analise.py line 69).  Time of day plays
no role in the analysed code paths. -/
structure Date where
  y : Nat
  m : Nat
  d : Nat
deriving DecidableEq

/-- Chronological order on dates, as used by the date-range filter
`filtered_df['data'].dt.date >= ... <= ...` (src/analise.py lines 139-142). -/
def dateLe (a b : Date) : Bool :=
  a.y < b.y || (a.y == b.y && (a.m < b.m || (a.m == b.m && a.d ≤ b.d)))

/-- Zero-pads a number to two digits, as period formatting does. -/
def pad2 (n : Nat) : String := if n < 10 then "0" ++ Nat.repr n else Nat.repr n

/-- Zero-pads a number to four digits, as period formatting does for years. -/
def pad4 (n : Nat) : String :=
  if n < 10 then "000" ++ Nat.repr n
  else if n < 100 then "00" ++ Nat.repr n
  else if n < 1000 then "0" ++ Nat.repr n
  else Nat.repr n

/-- Monthly period label: the string form of `df['data'].dt.to_period('M')`
(src/analise.py line 76), i.e. zero-padded year, a hyphen, zero-padded month. -/
def mesLabel (dt : Date) : String := pad4 dt.y ++ "-" ++ pad2 dt.m

/-- Quarter number (1-4) of a month number. -/
def quarterNum (m : Nat) : Nat := (m - 1) / 3 + 1

/-- Quarterly period label: the string form of `df['data'].dt.to_period('Q')`
(src/analise.py line 77).  pandas prints quarterly periods as `YYYYQn`, with
no separator between the year and the `Q`. -/
def trimestreLabel (dt : Date) : String := pad4 dt.y ++ "Q" ++ Nat.repr (quarterNum dt.m)

/-- Year label: the string form of `df['data'].dt.year` (src/analise.py
line 78), the unpadded decimal year. -/
def anoLabel (dt : Date) : String := Nat.repr dt.y

/-- ISO date string, as produced by `.dt.date.astype(str)` (line 158). -/
def dateStr (dt : Date) : String := pad4 dt.y ++ "-" ++ pad2 dt.m ++ "-" ++ pad2 dt.d

/-- Days elapsed since 0000-03-01 in the proleptic Gregorian calendar
(standard civil-from-days arithmetic); used to locate the week containing a
date when rendering `to_period('W')` labels (src/analise.py line 160). -/
def dayNumber (dt : Date) : Nat :=
  let yy := if dt.m ≤ 2 then dt.y - 1 else dt.y
  let mp := if dt.m ≤ 2 then dt.m + 9 else dt.m - 3
  365 * yy + yy / 4 - yy / 100 + yy / 400 + (153 * mp + 2) / 5 + dt.d - 1

/-- Inverse of `dayNumber`: the calendar date of a day count. -/
def civilFromDays (z : Nat) : Date :=
  let era := z / 146097
  let doe := z % 146097
  let yoe := (doe - doe / 1460 + doe / 36524 - doe / 146096) / 365
  let yy := yoe + era * 400
  let doy := doe - (365 * yoe + yoe / 4 - yoe / 100)
  let mp := (5 * doy + 2) / 153
  let dd := doy - (153 * mp + 2) / 5 + 1
  let mm := if mp < 10 then mp + 3 else mp - 9
  { y := if mm ≤ 2 then yy + 1 else yy, m := mm, d := dd }

/-- Weekly period label: the string form of `to_period('W')` (src/analise.py
line 160), the Monday-to-Sunday week containing the date printed as
`start/end` ISO dates. -/
def weekLabel (dt : Date) : String :=
  let z := dayNumber dt
  let start := z - (z + 2) % 7
  dateStr (civilFromDays start) ++ "/" ++ dateStr (civilFromDays (start + 6))

/-- A row of the clean table produced by `load_data`: the canonical columns
`data`, `valor`, `empresa`, `vendedor` (the last may be missing, since
`dropna` in line 73 does not cover it), the derived period columns of lines
76-78, and the `periodo` column that `apply_filters` assigns (absent, i.e.
`none`, before filtering). -/
structure Row where
  data : Date
  valor : ℚ
  empresa : String
  vendedor : Option String
  mes : String
  trimestre : String
  ano : String
  periodo : Option String
deriving DecidableEq

/-- The filter specification assembled by `sidebar_filters` (src/analise.py
lines 126-132): date range, selected company and salesperson lists, value
range, and the temporal-granularity label. -/
structure Filters where
  date_range : Date × Date
  empresas : List String
  vendedores : List String
  val_range : ℚ × ℚ
  time_granularity : String
deriving DecidableEq

/-- Date-range predicate of `apply_filters` (lines 139-142), inclusive at
both ends. -/
def datePred (f : Filters) (r : Row) : Bool :=
  dateLe f.date_range.1 r.data && dateLe r.data f.date_range.2

/-- Categorical predicate of `apply_filters` (lines 145-148): `isin`
membership of the company and of the salesperson in the selected lists.  A
missing salesperson value is in no list, matching `isin` on nulls. -/
def catPred (f : Filters) (r : Row) : Bool :=
  f.empresas.contains r.empresa &&
    (match r.vendedor with
     | some v => f.vendedores.contains v
     | none => false)

/-- Value-range predicate of `apply_filters` (lines 151-154), inclusive. -/
def valPred (f : Filters) (r : Row) : Bool :=
  decide (f.val_range.1 ≤ r.valor) && decide (r.valor ≤ f.val_range.2)

/-- Value of the `periodo` column assigned by `apply_filters` (lines
157-166), selected by the granularity label; the final `else` branch is the
yearly label, as in the source. -/
def periodoOf (f : Filters) (r : Row) : String :=
  if f.time_granularity = "Diário" then dateStr r.data
  else if f.time_granularity = "Semanal" then weekLabel r.data
  else if f.time_granularity = "Mensal" then r.mes
  else if f.time_granularity = "Trimestral" then r.trimestre
  else r.ano

/-- The assignment `filtered_df['periodo'] = ...` as a per-row update. -/
def setPeriodo (f : Filters) (r : Row) : Row :=
  { r with periodo := some (periodoOf f r) }

/-- Shallow embedding of `apply_filters` (src/analise.py lines 135-168):
filter by date range, then by company and salesperson membership, then by
value range, and finally assign the `periodo` column. -/
def apply_filters (df : List Row) (f : Filters) : List Row :=
  (((df.filter (datePred f)).filter (catPred f)).filter (valPred f)).map (setPeriodo f)

/-- Forgets the `periodo` column of a row; used to compare the surviving rows
of a filtered table with the rows of its input. -/
def erasePeriodo (r : Row) : Row := { r with periodo := none }

/-- Exact rational addition in an executable form (built with `mkRat`, which
the kernel can evaluate); proved equal to `+` below. -/
def qAdd (a b : ℚ) : ℚ := mkRat (a.num * b.den + b.num * a.den) (a.den * b.den)

/-- Exact rational subtraction in an executable form; proved equal to `-`
below. -/
def qSub (a b : ℚ) : ℚ := mkRat (a.num * b.den - b.num * a.den) (a.den * b.den)

/-- Exact rational multiplication in an executable form; proved equal to `*`
below. -/
def qMul (a b : ℚ) : ℚ := mkRat (a.num * b.num) (a.den * b.den)

/-- Sum of a list of rationals in an executable form; proved equal to
`List.sum` below. -/
def sumQ (l : List ℚ) : ℚ := l.foldr qAdd 0

/-- Total of the `valor` column: `df['valor'].sum()` (src/analise.py
line 177). -/
def total_value (df : List Row) : ℚ := sumQ (df.map Row.valor)

/-- Comparison of grouped rows by their summed amount, used to model
`nsmallest` on a value series. -/
def valOrder (p q : String × ℚ) : Prop := p.2 ≤ q.2

instance : DecidableRel valOrder := fun p q => inferInstanceAs (Decidable (p.2 ≤ q.2))

instance : IsTotal (String × ℚ) valOrder := ⟨fun p q => le_total p.2 q.2⟩

instance : IsTrans (String × ℚ) valOrder := ⟨fun _ _ _ h1 h2 => le_trans h1 h2⟩

/-- Code-point lexicographic comparison of character lists, the order Python
uses on strings. -/
def charListLe : List Char → List Char → Bool
  | [], _ => true
  | _ :: _, [] => false
  | c :: cs, d :: ds =>
      if c.val < d.val then true
      else if d.val < c.val then false
      else charListLe cs ds

/-- Code-point lexicographic order on strings. -/
def strLe (a b : String) : Prop := charListLe a.data b.data = true

instance : DecidableRel strLe :=
  fun a b => inferInstanceAs (Decidable (charListLe a.data b.data = true))

/-- Distinct salesperson keys of a table, sorted, as `groupby('vendedor')`
produces them; missing (null) salesperson values form no group, matching
pandas `groupby`. -/
def vendedorKeys (df : List Row) : List String :=
  List.insertionSort strLe (df.filterMap Row.vendedor).dedup

/-- Per-salesperson totals, `df.groupby('vendedor')['valor'].sum()`
(src/analise.py line 286). -/
def groupSumVendedor (df : List Row) : List (String × ℚ) :=
  (vendedorKeys df).map
    (fun k => (k, sumQ ((df.filter (fun r => r.vendedor == some k)).map Row.valor)))

/-- The three smallest per-salesperson totals, ascending:
`.nsmallest(3)` (src/analise.py line 286). -/
def nsmallest3 (df : List Row) : List (String × ℚ) :=
  (List.insertionSort valOrder (groupSumVendedor df)).take 3

/-- Low-performer findings of `display_alerts` (src/analise.py lines
286-290): if any of the three smallest per-salesperson totals is below the
threshold, all three are written out; otherwise nothing is. -/
def lowPerformerFindings (df : List Row) (thr : ℚ) : List (String × ℚ) :=
  if (nsmallest3 df).any (fun p => decide (p.2 < thr)) then nsmallest3 df else []

/-- Floor of a nonnegative rational, executable form. -/
def floorQ (x : ℚ) : Nat := x.num.toNat / x.den

/-- Ceiling of a nonnegative rational, executable form. -/
def ceilQ (x : ℚ) : Nat := (x.num.toNat + x.den - 1) / x.den

/-- Linear interpolation of a sorted list at a fractional position `h`:
between the entries at positions `floor h` and `ceil h`. -/
def interp (s : List ℚ) (h : ℚ) : ℚ :=
  qAdd (s.getD (floorQ h) 0)
    (qMul (qSub h ((floorQ h : ℕ) : ℚ)) (qSub (s.getD (ceilQ h) 0) (s.getD (floorQ h) 0)))

/-- Linear-interpolation quantile of a sorted list, the default
`Series.quantile` method used at src/analise.py lines 304-305: interpolate
at position `h = (n - 1) * q`. -/
def quantileSorted (s : List ℚ) (q : ℚ) : ℚ :=
  if s.isEmpty then 0
  else interp s (qMul ((s.length - 1 : ℕ) : ℚ) q)

/-- The `valor` column in ascending order, as quantile computation sorts it. -/
def sortedVals (df : List Row) : List ℚ :=
  List.insertionSort (fun a b : ℚ => a ≤ b) (df.map Row.valor)

/-- First quartile `Q1 = df['valor'].quantile(0.25)` (line 304). -/
def q1 (df : List Row) : ℚ := quantileSorted (sortedVals df) (mkRat 1 4)

/-- Third quartile `Q3 = df['valor'].quantile(0.75)` (line 305). -/
def q3 (df : List Row) : ℚ := quantileSorted (sortedVals df) (mkRat 3 4)

/-- Interquartile range `IQR = Q3 - Q1` (line 306). -/
def iqr (df : List Row) : ℚ := qSub (q3 df) (q1 df)

/-- Lower outlier bound `Q1 - 1.5 * IQR` (line 307). -/
def lowerBound (df : List Row) : ℚ := qSub (q1 df) (qMul (mkRat 3 2) (iqr df))

/-- Upper outlier bound `Q3 + 1.5 * IQR` (line 307). -/
def upperBound (df : List Row) : ℚ := qAdd (q3 df) (qMul (mkRat 3 2) (iqr df))

/-- Outlier rows flagged by `display_alerts` (src/analise.py line 307): value
strictly below the lower bound or strictly above the upper bound. -/
def outliers (df : List Row) : List Row :=
  df.filter (fun r => decide (r.valor < lowerBound df) || decide (upperBound df < r.valor))

/-- An uploaded raw table as `pd.read_csv`/`read_excel` delivers it to
`load_data`: a list of column names and rows of optional string cells aligned
with those names (a `none` cell is a null/NaN value). -/
structure RawTable where
  cols : List String
  rows : List (List (Option String))
deriving DecidableEq

/-- Decidable equality for load results, used by concrete evaluations. -/
instance : DecidableEq (Except String (List Row)) := fun a b =>
  match a, b with
  | Except.error x, Except.error y =>
      if h : x = y then isTrue (by rw [h])
      else isFalse (fun hh => h (Except.error.inj hh))
  | Except.error _, Except.ok _ => isFalse (fun hh => by cases hh)
  | Except.ok _, Except.error _ => isFalse (fun hh => by cases hh)
  | Except.ok x, Except.ok y =>
      if h : x = y then isTrue (by rw [h])
      else isFalse (fun hh => h (Except.ok.inj hh))

/-- The alias dictionary `required_cols` of `load_data` (src/analise.py lines
57-60), in its insertion order. -/
def required_cols : List (String × List String) :=
  [("data", ["Data", "DATE", "data_venda"]),
   ("valor", ["Valor", "VALUE", "total"]),
   ("empresa", ["Empresa", "Cliente", "CLIENTE"]),
   ("vendedor", ["Vendedor", "Responsável", "VENDEDOR"])]

/-- One pass of the renaming loop (lines 62-66): the first alias present in
the column list, compared by exact string equality, is renamed to the
canonical name. -/
def renameOne (cols : List String) (std : String) (aliases : List String) : List String :=
  match aliases.find? (fun a => cols.contains a) with
  | some a => cols.map (fun c => if c = a then std else c)
  | none => cols

/-- The full renaming loop over `required_cols`. -/
def renameCols (cols : List String) : List String :=
  required_cols.foldl (fun cs p => renameOne cs p.1 p.2) cols

/-- Position of a column name in the column list, `none` when absent. -/
def colIdx : List String → String → Option Nat
  | [], _ => none
  | c :: cs, n => if c = n then some 0 else (colIdx cs n).map (· + 1)

/-- Space character test used when stripping a cell before parsing. -/
def isSpace (c : Char) : Bool := c = ' '

/-- Leading and trailing spaces of a cell are ignored by the numeric parser,
as `pd.to_numeric` ignores surrounding whitespace. -/
def trimChars (cs : List Char) : List Char :=
  ((cs.dropWhile isSpace).reverse.dropWhile isSpace).reverse

/-- Decimal value of a digit list. -/
def digitsVal (cs : List Char) : Nat := cs.foldl (fun a c => 10 * a + (c.toNat - 48)) 0

/-- Numeric parsing of the unsigned part of a cell: an integer part and an
optional dot-separated fractional part, nothing else. -/
def parseNumCore (sgn : Int) (body : List Char) : Option ℚ :=
  match body.dropWhile Char.isDigit with
  | [] =>
      if (body.takeWhile Char.isDigit).isEmpty then none
      else some (mkRat (sgn * digitsVal (body.takeWhile Char.isDigit)) 1)
  | '.' :: fp =>
      if fp.all Char.isDigit && (!(body.takeWhile Char.isDigit).isEmpty || !fp.isEmpty) then
        some (mkRat
          (sgn * (digitsVal (body.takeWhile Char.isDigit) * 10 ^ fp.length + digitsVal fp))
          (10 ^ fp.length))
      else none
  | _ => none

/-- Numeric parsing of a cell, modelling `pd.to_numeric(..., errors='coerce')`
(src/analise.py line 70): an optional sign, an integer part and an optional
fractional part, nothing else.  In particular no currency symbol or
thousands-separator stripping takes place; any such character makes the cell
unparseable (`none`, i.e. NaN under `coerce`). -/
def parseNumChars (cs : List Char) : Option ℚ :=
  match cs with
  | '-' :: r => parseNumCore (-1) r
  | '+' :: r => parseNumCore 1 r
  | r => parseNumCore 1 r

/-- Numeric parsing of a cell string. -/
def parseNum (s : String) : Option ℚ := parseNumChars (trimChars s.data)

/-- Parses a nonempty all-digit character list. -/
def parseNatDigits (cs : List Char) : Option Nat :=
  if cs.isEmpty || !cs.all Char.isDigit then none else some (digitsVal cs)

/-- Splits a character list at hyphens. -/
def splitDashAux : List Char → List Char → List (List Char)
  | [], acc => [acc.reverse]
  | c :: rest, acc =>
      if c = '-' then acc.reverse :: splitDashAux rest []
      else splitDashAux rest (c :: acc)

/-- Splits a character list at hyphens, top level. -/
def splitDash (cs : List Char) : List (List Char) := splitDashAux cs []

/-- Gregorian leap-year test. -/
def isLeap (y : Nat) : Bool := (y % 4 == 0 && y % 100 != 0) || y % 400 == 0

/-- Number of days in a month. -/
def daysInMonth (y m : Nat) : Nat :=
  if m == 2 then (if isLeap y then 29 else 28)
  else if m == 4 || m == 6 || m == 9 || m == 11 then 30
  else 31

/-- Date parsing of a cell, modelling `pd.to_datetime(..., errors='coerce')`
(src/analise.py line 69) on ISO `YYYY-MM-DD` inputs: a four-digit year keeps
the parse free of the day-first/month-first ambiguity, and calendar-invalid
dates coerce to `none` (NaT). -/
def parseDate (s : String) : Option Date :=
  match (splitDash (trimChars s.data)).map parseNatDigits with
  | [some yv, some mv, some dv] =>
      if 1000 ≤ yv && 1 ≤ mv && mv ≤ 12 && 1 ≤ dv && dv ≤ daysInMonth yv mv then
        some { y := yv, m := mv, d := dv }
      else none
  | _ => none

/-- Coercion of one raw row (src/analise.py lines 69-78): the date and value
cells are parsed, and the row is kept only when date, value and company are
all present after coercion (`dropna(subset=['data', 'valor', 'empresa'])`,
line 73); the salesperson cell is carried over as-is, and the derived period
columns are computed from the parsed date. -/
def coerceRow (di vi ei : Nat) (vidx : Option Nat) (raw : List (Option String)) : Option Row :=
  match (raw.getD di none).bind parseDate, (raw.getD vi none).bind parseNum,
      raw.getD ei none with
  | some dt, some v, some emp =>
      some { data := dt, valor := v, empresa := emp,
             vendedor := (match vidx with | some k => raw.getD k none | none => none),
             mes := mesLabel dt, trimestre := trimestreLabel dt, ano := anoLabel dt,
             periodo := none }
  | _, _, _ => none

/-- Shallow embedding of `load_data` (src/analise.py lines 49-84): rename
columns by the alias lists, then coerce types row by row and drop rows
missing date, value or company.  Accessing a missing mandatory column raises
(`df['data']` at line 69, `df['valor']` at line 70, the `dropna` subset at
line 73); the `except` branch surfaces the error and yields no table, which
is modelled as `Except.error` carrying the first missing column name. -/
def load_data (t : RawTable) : Except String (List Row) :=
  match colIdx (renameCols t.cols) "data" with
  | none => Except.error "data"
  | some di =>
    match colIdx (renameCols t.cols) "valor" with
    | none => Except.error "valor"
    | some vi =>
      match colIdx (renameCols t.cols) "empresa" with
      | none => Except.error "empresa"
      | some ei =>
        Except.ok
          (t.rows.filterMap (coerceRow di vi ei (colIdx (renameCols t.cols) "vendedor")))

/-- Monthly period label as the spec words it: the 4-digit year, a hyphen,
and the zero-padded month number. -/
def specMonthLabel (dt : Date) : String := pad4 dt.y ++ "-" ++ pad2 dt.m

/-- Quarterly period label as the spec words it: the 4-digit year, the
literal `-Q`, and the quarter number 1-4. -/
def specQuarterLabel (dt : Date) : String := pad4 dt.y ++ "-Q" ++ Nat.repr (quarterNum dt.m)

/-- Year period label as the spec words it: the 4-digit year string. -/
def specYearLabel (dt : Date) : String := pad4 dt.y

/-- Builds the clean row that `load_data` produces from already-coerced
cells. -/
def cleanRow (dt : Date) (v : ℚ) (e : String) (vd : Option String) : Row :=
  { data := dt, valor := v, empresa := e, vendedor := vd,
    mes := mesLabel dt, trimestre := trimestreLabel dt, ano := anoLabel dt,
    periodo := none }

/-- Lowercases a string character-wise, used to exhibit case-insensitive
column matches. -/
def lowerStr (s : String) : String := { data := s.data.map Char.toLower }

/-- Sample clean row for the company-filter evaluations. -/
def c1Row : Row := cleanRow ⟨2024, 1, 15⟩ 100 "Acme" (some "Ana")

/-- Filter specification selecting every company and salesperson of
`c1Row`. -/
def c1AllF : Filters :=
  { date_range := (⟨2024, 1, 1⟩, ⟨2024, 12, 31⟩), empresas := ["Acme"],
    vendedores := ["Ana"], val_range := (0, 1000), time_granularity := "Mensal" }

/-- Same specification with an empty companies selection. -/
def c1EmptyF : Filters := { c1AllF with empresas := [] }

/-- Two-row table with one negative value. -/
def c3Tab : List Row :=
  [cleanRow ⟨2024, 1, 15⟩ 10 "Acme" (some "Ana"),
   cleanRow ⟨2024, 2, 1⟩ (-5) "Acme" (some "Ana")]

/-- Filter specification restricting the value range to `[0, 10]`, inside the
data's own range. -/
def c3F : Filters :=
  { date_range := (⟨2024, 1, 1⟩, ⟨2024, 12, 31⟩), empresas := ["Acme"],
    vendedores := ["Ana"], val_range := (0, 10), time_granularity := "Mensal" }

/-- Two-row table with nonnegative values only. -/
def c3wTab : List Row :=
  [cleanRow ⟨2024, 1, 15⟩ 10 "Acme" (some "Ana"),
   cleanRow ⟨2024, 2, 1⟩ 5 "Acme" (some "Ana")]

/-- Four salespeople with totals 10, 20, 30 and 40. -/
def c2Tab : List Row :=
  [cleanRow ⟨2024, 1, 15⟩ 10 "Acme" (some "Ana"),
   cleanRow ⟨2024, 1, 15⟩ 20 "Acme" (some "Bia"),
   cleanRow ⟨2024, 1, 15⟩ 30 "Acme" (some "Caio"),
   cleanRow ⟨2024, 1, 15⟩ 40 "Acme" (some "Duda")]

/-- Five rows with values 0, 1, 1, 1, 5: quartiles are both 1, so the
interquartile range is zero while two values lie outside `[1, 1]`. -/
def c4Tab : List Row :=
  [cleanRow ⟨2024, 1, 15⟩ 0 "Acme" (some "Ana"),
   cleanRow ⟨2024, 1, 15⟩ 1 "Acme" (some "Ana"),
   cleanRow ⟨2024, 1, 15⟩ 1 "Acme" (some "Ana"),
   cleanRow ⟨2024, 1, 15⟩ 1 "Acme" (some "Ana"),
   cleanRow ⟨2024, 1, 15⟩ 5 "Acme" (some "Ana")]

/-- Two rows with far-apart values. -/
def c4wTab : List Row :=
  [cleanRow ⟨2024, 1, 15⟩ 3 "Acme" (some "Ana"),
   cleanRow ⟨2024, 1, 15⟩ 100 "Acme" (some "Ana")]

/-- One-row raw table with all four canonical columns and the given cells. -/
def oneRowTable (dc vc : String) (ec vd : Option String) : RawTable :=
  { cols := ["Data", "Valor", "Empresa", "Vendedor"],
    rows := [[some dc, some vc, ec, vd]] }

/-- One-row raw table without any salesperson column. -/
def oneRowTableNoVend (dc vc : String) (ec : Option String) : RawTable :=
  { cols := ["Data", "Valor", "Empresa"], rows := [[some dc, some vc, ec]] }

/-- One-row raw table whose value cell is the given string. -/
def currencyTable (v : String) : RawTable :=
  oneRowTable "2024-01-15" v (some "Acme") (some "Ana")

/-- Raw table whose date column is named `DATA`, an exact-case mismatch with
every accepted alias. -/
def c6Tab : RawTable :=
  { cols := ["DATA", "Valor", "Empresa", "Vendedor"],
    rows := [[some "2024-01-15", some "1000", some "Acme", some "Ana"]] }

/-- Raw table with no resolvable date column at all. -/
def c6wTab : RawTable :=
  { cols := ["X", "Valor", "Empresa"], rows := [] }

/-- Two raw rows, the second with a missing company cell. -/
def c7Tab : RawTable :=
  { cols := ["Data", "Valor", "Empresa", "Vendedor"],
    rows := [[some "2024-01-15", some "1000", some "Acme", some "Ana"],
             [some "2024-02-01", some "500", none, some "Ana"]] }

/-- One-row raw table with a first-quarter date. -/
def c8Tab : RawTable :=
  { cols := ["Data", "Valor", "Empresa", "Vendedor"],
    rows := [[some "2024-01-15", some "1000", some "Acme", some "Ana"]] }

/-- The clean row `load_data` produces from `c8Tab`. -/
def c8Row : Row := cleanRow ⟨2024, 1, 15⟩ 1000 "Acme" (some "Ana")

end Analise

namespace Analise

theorem numEq (a : ℚ) : (a.num : ℚ) = a * a.den := by
  have ha : ((a.den : ℚ)) ≠ 0 := by exact_mod_cast a.den_nz
  rw [← div_eq_iff ha, Rat.num_div_den]

theorem qAdd_eq (a b : ℚ) : qAdd a b = a + b := by
  have ha : ((a.den : ℚ)) ≠ 0 := by exact_mod_cast a.den_nz
  have hb : ((b.den : ℚ)) ≠ 0 := by exact_mod_cast b.den_nz
  rw [qAdd, Rat.mkRat_eq_div]
  push_cast
  rw [div_eq_iff (mul_ne_zero ha hb), numEq a, numEq b]
  ring

theorem qSub_eq (a b : ℚ) : qSub a b = a - b := by
  have ha : ((a.den : ℚ)) ≠ 0 := by exact_mod_cast a.den_nz
  have hb : ((b.den : ℚ)) ≠ 0 := by exact_mod_cast b.den_nz
  rw [qSub, Rat.mkRat_eq_div]
  push_cast
  rw [div_eq_iff (mul_ne_zero ha hb), numEq a, numEq b]
  ring

theorem qMul_eq (a b : ℚ) : qMul a b = a * b := by
  have ha : ((a.den : ℚ)) ≠ 0 := by exact_mod_cast a.den_nz
  have hb : ((b.den : ℚ)) ≠ 0 := by exact_mod_cast b.den_nz
  rw [qMul, Rat.mkRat_eq_div]
  push_cast
  rw [div_eq_iff (mul_ne_zero ha hb), numEq a, numEq b]
  ring

theorem sumQ_eq (l : List ℚ) : sumQ l = l.sum := by
  induction l with
  | nil => rfl
  | cons a t ih =>
    show qAdd a (sumQ t) = (a :: t).sum
    rw [qAdd_eq, ih, List.sum_cons]

/-- C9: `apply_filters` is idempotent: re-applying the same filter
specification to an already-filtered table returns it unchanged. -/
theorem C9_apply_filters_idempotent (t : List Row) (f : Filters) :
    apply_filters (apply_filters t f) f = apply_filters t f := by
  unfold apply_filters
  set l := ((t.filter (datePred f)).filter (catPred f)).filter (valPred f) with hl
  have hmem : ∀ r ∈ l, datePred f r = true ∧ catPred f r = true ∧ valPred f r = true := by
    intro r hr
    rw [hl] at hr
    have h3 := List.mem_filter.mp hr
    have h2 := List.mem_filter.mp h3.1
    have h1 := List.mem_filter.mp h2.1
    exact ⟨h1.2, h2.2, h3.2⟩
  rw [List.filter_map, List.filter_map, List.filter_map, List.map_map]
  have hd : l.filter (datePred f ∘ setPeriodo f) = l :=
    List.filter_eq_self.mpr (fun r hr => (hmem r hr).1)
  rw [hd]
  have hc : l.filter (catPred f ∘ setPeriodo f) = l :=
    List.filter_eq_self.mpr (fun r hr => (hmem r hr).2.1)
  rw [hc]
  have hv : l.filter (valPred f ∘ setPeriodo f) = l :=
    List.filter_eq_self.mpr (fun r hr => (hmem r hr).2.2)
  rw [hv]
  exact List.map_eq_map_iff.mpr (fun r _ => rfl)

/-- C10: filtering preserves the relative order of the surviving rows: up to
the added `periodo` column, the filtered table is a sublist of its input
(and, the embedding being pure, the input itself is untouched). -/
theorem C10_apply_filters_order_preserving (t : List Row) (f : Filters) :
    List.Sublist ((apply_filters t f).map erasePeriodo) (t.map erasePeriodo) := by
  unfold apply_filters
  rw [List.map_map]
  have h1 : (erasePeriodo ∘ setPeriodo f) = erasePeriodo := rfl
  rw [h1]
  exact List.Sublist.map erasePeriodo
    ((List.filter_sublist _).trans ((List.filter_sublist _).trans (List.filter_sublist _)))

/-- C1 (amended): an empty companies (or salespeople) selection excludes
every row — `isin` against an empty list holds of no row, so `apply_filters`
returns the empty table, not the unrestricted one. -/
theorem C1_empty_selection_excludes_all (t : List Row) (f : Filters)
    (h : f.empresas = [] ∨ f.vendedores = []) : apply_filters t f = [] := by
  have hcat : ∀ r : Row, catPred f r = false := by
    intro r
    unfold catPred
    rcases h with h1 | h1
    · rw [h1]
      simp
    · rw [h1]
      cases r.vendedor <;> simp
  unfold apply_filters
  have hnil : (t.filter (datePred f)).filter (catPred f) = [] :=
    List.filter_eq_nil_iff.mpr (fun r _ => by rw [hcat r]; exact Bool.false_ne_true)
  rw [hnil]
  rfl

/-- C1 counterexample: on a one-row table whose row passes the date, value
and salesperson predicates, the empty companies selection yields the empty
table while the selection listing the row's company yields the row; so an
empty selection is not the same as an unrestricted one. -/
theorem C1_counterexample :
    apply_filters [c1Row] c1EmptyF = [] ∧ apply_filters [c1Row] c1AllF ≠ [] := by
  decide

/-- C1 witness: the amended theorem applied to the sample table and the
empty-companies specification. -/
theorem C1_empty_selection_excludes_all_witness :
    c1EmptyF.empresas = [] ∧ apply_filters [c1Row] c1EmptyF = [] :=
  ⟨rfl, C1_empty_selection_excludes_all [c1Row] c1EmptyF (Or.inl rfl)⟩

/-- C3 (amended): when every value of the table is nonnegative, the total of
the filtered table is at most the total of the table, for every filter
specification. -/
theorem C3_total_value_filtered_le (t : List Row) (f : Filters)
    (h : ∀ r ∈ t, 0 ≤ r.valor) :
    total_value (apply_filters t f) ≤ total_value t := by
  unfold total_value apply_filters
  rw [sumQ_eq, sumQ_eq, List.map_map]
  have h1 : (Row.valor ∘ setPeriodo f) = Row.valor := rfl
  rw [h1]
  have hsub : List.Sublist (((t.filter (datePred f)).filter (catPred f)).filter (valPred f)) t :=
    (List.filter_sublist _).trans ((List.filter_sublist _).trans (List.filter_sublist _))
  refine List.Sublist.sum_le_sum (List.Sublist.map Row.valor hsub) ?_
  intro a ha
  rcases List.mem_map.mp ha with ⟨r, hr, hra⟩
  exact hra ▸ h r hr

/-- C3 counterexample: with a signed value column the inequality fails — on a
table with values 10 and -5 and a value-range restriction to `[0, 10]`
(inside the data's own range), the filtered total 10 exceeds the unfiltered
total 5. -/
theorem C3_counterexample :
    total_value c3Tab = 5 ∧ total_value (apply_filters c3Tab c3F) = 10 ∧
      ¬ total_value (apply_filters c3Tab c3F) ≤ total_value c3Tab := by
  decide

/-- C3 witness: the amended theorem applied to an all-nonnegative table. -/
theorem C3_total_value_filtered_le_witness :
    (∀ r ∈ c3wTab, 0 ≤ r.valor) ∧
      total_value (apply_filters c3wTab c3F) ≤ total_value c3wTab :=
  ⟨by decide, C3_total_value_filtered_le c3wTab c3F (by decide)⟩

/-- C2 (amended): the low-performer check reports at most the three smallest
per-salesperson totals (the `nsmallest(3)` cap), sorted ascending by amount,
and reports them — all three, including any at or above the threshold —
exactly when some per-salesperson total is below the threshold. -/
theorem C2_low_performer_check (df : List Row) (thr : ℚ) :
    (lowPerformerFindings df thr).length ≤ 3 ∧
      List.Sorted valOrder (lowPerformerFindings df thr) ∧
      (lowPerformerFindings df thr ≠ [] ↔ ∃ p ∈ groupSumVendedor df, p.2 < thr) := by
  have hsorted : List.Sorted valOrder (List.insertionSort valOrder (groupSumVendedor df)) :=
    List.sorted_insertionSort valOrder _
  have hperm := List.perm_insertionSort valOrder (groupSumVendedor df)
  unfold lowPerformerFindings nsmallest3
  by_cases hany : ((List.insertionSort valOrder (groupSumVendedor df)).take 3).any
      (fun p => decide (p.2 < thr)) = true
  · rw [if_pos hany]
    refine ⟨List.length_take_le 3 _, List.Pairwise.take hsorted, ?_, ?_⟩
    · intro _
      rcases List.any_eq_true.mp hany with ⟨p, hp, hplt⟩
      exact ⟨p, hperm.subset ((List.take_sublist 3 _).subset hp), of_decide_eq_true hplt⟩
    · intro _ h0
      rw [h0] at hany
      exact Bool.false_ne_true hany
  · rw [if_neg hany]
    refine ⟨by simp, List.sorted_nil, ?_, ?_⟩
    · intro hne
      exact absurd rfl hne
    · rintro ⟨p, hp, hplt⟩ _
      apply hany
      have hpS : p ∈ List.insertionSort valOrder (groupSumVendedor df) :=
        (hperm.symm.subset) hp
      rcases hE : List.insertionSort valOrder (groupSumVendedor df) with _ | ⟨q, rest⟩
      · rw [hE] at hpS
        exact absurd hpS (List.not_mem_nil p)
      · rw [hE] at hpS hsorted
        have hqp : q.2 ≤ p.2 := by
          rcases List.mem_cons.mp hpS with h1 | h2
          · rw [h1]
          · exact List.rel_of_sorted_cons hsorted p h2
        have hqlt : q.2 < thr := lt_of_le_of_lt hqp hplt
        exact List.any_eq_true.mpr ⟨q, by simp [List.take], decide_eq_true hqlt⟩

/-- C2 counterexample: four salespeople all below the threshold 100 yield
only three findings, not one finding per below-threshold salesperson. -/
theorem C2_counterexample :
    (lowPerformerFindings c2Tab 100).length = 3 ∧
      ((groupSumVendedor c2Tab).filter (fun p => decide (p.2 < 100))).length = 4 := by
  decide

theorem quantileSorted_ne (s : List ℚ) (q : ℚ) (hs : s.isEmpty = false) :
    quantileSorted s q = interp s (qMul ((s.length - 1 : ℕ) : ℚ) q) := by
  unfold quantileSorted
  rw [hs]
  simp

theorem interp_eval {s : List ℚ} {h : ℚ} (a b c : ℚ) (n : ℕ)
    (ha : s.getD (floorQ h) 0 = a) (hb : s.getD (ceilQ h) 0 = b)
    (hfl : floorQ h = n) (hv : h = c) :
    interp s h = a + (c - (n : ℚ)) * (b - a) := by
  unfold interp
  rw [ha, hb, hfl, hv, qAdd_eq, qMul_eq, qSub_eq, qSub_eq]

theorem sortedSmallBounds (s : List ℚ) (hlen : s.length ≤ 3)
    (hsort : List.Sorted (fun a b : ℚ => a ≤ b) s) (x : ℚ) (hx : x ∈ s) :
    qSub (quantileSorted s (mkRat 1 4))
        (qMul (mkRat 3 2)
          (qSub (quantileSorted s (mkRat 3 4)) (quantileSorted s (mkRat 1 4)))) ≤ x ∧
      x ≤ qAdd (quantileSorted s (mkRat 3 4))
        (qMul (mkRat 3 2)
          (qSub (quantileSorted s (mkRat 3 4)) (quantileSorted s (mkRat 1 4)))) := by
  have c14 : (mkRat 1 4 : ℚ) = 1/4 := by rw [Rat.mkRat_eq_div]; norm_num
  have c34 : (mkRat 3 4 : ℚ) = 3/4 := by rw [Rat.mkRat_eq_div]; norm_num
  have c32 : (mkRat 3 2 : ℚ) = 3/2 := by rw [Rat.mkRat_eq_div]; norm_num
  have c04 : (mkRat 0 4 : ℚ) = 0 := by rw [Rat.mkRat_eq_div]; norm_num
  have c24 : (mkRat 2 4 : ℚ) = 1/2 := by rw [Rat.mkRat_eq_div]; norm_num
  have c64 : (mkRat 6 4 : ℚ) = 3/2 := by rw [Rat.mkRat_eq_div]; norm_num
  simp only [qSub_eq, qMul_eq, qAdd_eq, c32]
  rcases s with _ | ⟨a, _ | ⟨b, _ | ⟨c, _ | ⟨d, tl⟩⟩⟩⟩
  · cases hx
  · have e1 : quantileSorted [a] (mkRat 1 4) = a + ((mkRat 0 4) - ((0 : ℕ) : ℚ)) * (a - a) := by
      rw [quantileSorted_ne _ _ (by rfl),
        show ((([a] : List ℚ).length - 1 : ℕ) : ℚ) = ((0 : ℕ) : ℚ) by norm_num]
      exact interp_eval a a (mkRat 0 4) 0 (by rfl) (by rfl) (by rfl) (by rfl)
    have e3 : quantileSorted [a] (mkRat 3 4) = a + ((mkRat 0 4) - ((0 : ℕ) : ℚ)) * (a - a) := by
      rw [quantileSorted_ne _ _ (by rfl),
        show ((([a] : List ℚ).length - 1 : ℕ) : ℚ) = ((0 : ℕ) : ℚ) by norm_num]
      exact interp_eval a a (mkRat 0 4) 0 (by rfl) (by rfl) (by rfl) (by rfl)
    rw [e1, e3, c04]
    have hxa : x = a := by simpa using hx
    subst hxa
    push_cast
    constructor <;> nlinarith
  · have hab : a ≤ b := List.rel_of_sorted_cons hsort b (by simp)
    have e1 : quantileSorted [a, b] (mkRat 1 4)
        = a + ((mkRat 1 4) - ((0 : ℕ) : ℚ)) * (b - a) := by
      rw [quantileSorted_ne _ _ (by rfl),
        show ((([a, b] : List ℚ).length - 1 : ℕ) : ℚ) = ((1 : ℕ) : ℚ) by norm_num]
      exact interp_eval a b (mkRat 1 4) 0 (by rfl) (by rfl) (by rfl) (by rfl)
    have e3 : quantileSorted [a, b] (mkRat 3 4)
        = a + ((mkRat 3 4) - ((0 : ℕ) : ℚ)) * (b - a) := by
      rw [quantileSorted_ne _ _ (by rfl),
        show ((([a, b] : List ℚ).length - 1 : ℕ) : ℚ) = ((1 : ℕ) : ℚ) by norm_num]
      exact interp_eval a b (mkRat 3 4) 0 (by rfl) (by rfl) (by rfl) (by rfl)
    rw [e1, e3, c14, c34]
    have hxab : x = a ∨ x = b := by simpa using hx
    push_cast
    rcases hxab with h1 | h1 <;> subst h1 <;> constructor <;> nlinarith
  · have hab : a ≤ b := List.rel_of_sorted_cons hsort b (by simp)
    have hac : a ≤ c := List.rel_of_sorted_cons hsort c (by simp)
    have hbc : b ≤ c := List.rel_of_sorted_cons (List.Sorted.of_cons hsort) c (by simp)
    have e1 : quantileSorted [a, b, c] (mkRat 1 4)
        = a + ((mkRat 2 4) - ((0 : ℕ) : ℚ)) * (b - a) := by
      rw [quantileSorted_ne _ _ (by rfl),
        show ((([a, b, c] : List ℚ).length - 1 : ℕ) : ℚ) = ((2 : ℕ) : ℚ) by norm_num]
      exact interp_eval a b (mkRat 2 4) 0 (by rfl) (by rfl) (by rfl) (by rfl)
    have e3 : quantileSorted [a, b, c] (mkRat 3 4)
        = b + ((mkRat 6 4) - ((1 : ℕ) : ℚ)) * (c - b) := by
      rw [quantileSorted_ne _ _ (by rfl),
        show ((([a, b, c] : List ℚ).length - 1 : ℕ) : ℚ) = ((2 : ℕ) : ℚ) by norm_num]
      exact interp_eval b c (mkRat 6 4) 1 (by rfl) (by rfl) (by rfl) (by rfl)
    rw [e1, e3, c24, c64]
    have hxabc : x = a ∨ x = b ∨ x = c := by simpa using hx
    push_cast
    rcases hxabc with h1 | h1 | h1 <;> subst h1 <;> constructor <;> nlinarith
  · exfalso
    simp at hlen

theorem floorQ_le_cast (x : ℚ) (hx : 0 ≤ x) : ((floorQ x : ℕ) : ℚ) ≤ x := by
  unfold floorQ
  have hd : (0 : ℚ) < (x.den : ℚ) := by exact_mod_cast x.pos
  have h1 : ((x.num.toNat / x.den : ℕ) : ℚ) * (x.den : ℚ) ≤ ((x.num.toNat : ℕ) : ℚ) := by
    exact_mod_cast Nat.div_mul_le_self x.num.toNat x.den
  have h2 : ((x.num.toNat : ℕ) : ℚ) = ((x.num : ℤ) : ℚ) := by
    exact_mod_cast congrArg (fun z : ℤ => (z : ℚ)) (Int.toNat_of_nonneg (Rat.num_nonneg.mpr hx))
  rw [h2, numEq x] at h1
  exact le_of_mul_le_mul_right h1 hd

theorem floorQ_le_of (x : ℚ) (m : ℕ) (hx : 0 ≤ x) (hxm : x ≤ (m : ℚ)) : floorQ x ≤ m := by
  have h : ((floorQ x : ℕ) : ℚ) ≤ (m : ℚ) := le_trans (floorQ_le_cast x hx) hxm
  exact_mod_cast h

theorem ceilQ_le_of (x : ℚ) (m : ℕ) (_hx : 0 ≤ x) (hxm : x ≤ (m : ℚ)) : ceilQ x ≤ m := by
  have hd : 0 < x.den := x.pos
  have hkey : x.num.toNat ≤ x.den * m := by
    have h2 : (x.num : ℚ) ≤ (m : ℚ) * (x.den : ℚ) := by
      rw [numEq x]
      exact mul_le_mul_of_nonneg_right hxm (by positivity)
    have h4 : x.num.toNat ≤ m * x.den := Int.toNat_le.mpr (by exact_mod_cast h2)
    rw [Nat.mul_comm] at h4
    exact h4
  unfold ceilQ
  rw [Nat.div_le_iff_le_mul_add_pred hd]
  generalize hk : x.den * m = k at hkey ⊢
  omega

theorem quantileSorted_const (s : List ℚ) (c q : ℚ) (hs : s ≠ [])
    (hall : ∀ v ∈ s, v = c) (hq0 : 0 ≤ q) (hq1 : q ≤ 1) :
    quantileSorted s q = c := by
  have hlen : 0 < s.length := List.length_pos.mpr hs
  rw [quantileSorted_ne _ _ (List.isEmpty_eq_false.mpr hs)]
  have hmul : qMul ((s.length - 1 : ℕ) : ℚ) q = ((s.length - 1 : ℕ) : ℚ) * q := qMul_eq _ _
  have hq1g : 0 ≤ qMul ((s.length - 1 : ℕ) : ℚ) q := by
    rw [hmul]
    positivity
  have hqle : qMul ((s.length - 1 : ℕ) : ℚ) q ≤ ((s.length - 1 : ℕ) : ℚ) := by
    rw [hmul]
    exact mul_le_of_le_one_right (by positivity) hq1
  have hlo2 : floorQ (qMul ((s.length - 1 : ℕ) : ℚ) q) < s.length :=
    lt_of_le_of_lt (floorQ_le_of _ _ hq1g hqle) (Nat.sub_lt hlen Nat.one_pos)
  have hhi2 : ceilQ (qMul ((s.length - 1 : ℕ) : ℚ) q) < s.length :=
    lt_of_le_of_lt (ceilQ_le_of _ _ hq1g hqle) (Nat.sub_lt hlen Nat.one_pos)
  have ga : s.getD (floorQ (qMul ((s.length - 1 : ℕ) : ℚ) q)) 0 = c := by
    rw [List.getD_eq_getElem s 0 hlo2]
    exact hall _ (List.getElem_mem hlo2)
  have gb : s.getD (ceilQ (qMul ((s.length - 1 : ℕ) : ℚ) q)) 0 = c := by
    rw [List.getD_eq_getElem s 0 hhi2]
    exact hall _ (List.getElem_mem hhi2)
  rw [interp_eval c c (qMul ((s.length - 1 : ℕ) : ℚ) q)
    (floorQ (qMul ((s.length - 1 : ℕ) : ℚ) q)) ga gb rfl rfl]
  ring

/-- C4 (amended): outlier detection reports zero findings on every table with
fewer than 4 rows, and on every table whose values are all equal (then both
quartiles equal that value).  An interquartile range of zero alone does not
force zero findings — see the counterexample. -/
theorem C4_outlier_degenerate (df : List Row)
    (h : df.length < 4 ∨ ∃ c, ∀ r ∈ df, r.valor = c) :
    outliers df = [] := by
  unfold outliers
  apply List.filter_eq_nil_iff.mpr
  intro r hr
  simp only [Bool.or_eq_true, decide_eq_true_eq, not_or, not_lt]
  have hmemS : r.valor ∈ sortedVals df := by
    unfold sortedVals
    rw [List.mem_insertionSort]
    exact List.mem_map_of_mem Row.valor hr
  rcases h with hlen | ⟨c, hc⟩
  · have hlen2 : (sortedVals df).length ≤ 3 := by
      unfold sortedVals
      rw [List.length_insertionSort, List.length_map]
      omega
    have hsort : List.Sorted (fun a b : ℚ => a ≤ b) (sortedVals df) :=
      List.sorted_insertionSort _ _
    have hb := sortedSmallBounds (sortedVals df) hlen2 hsort r.valor hmemS
    exact ⟨hb.1, hb.2⟩
  · have hne : sortedVals df ≠ [] := by
      intro h0
      rw [h0] at hmemS
      exact List.not_mem_nil _ hmemS
    have hall : ∀ v ∈ sortedVals df, v = c := by
      intro v hv
      unfold sortedVals at hv
      rw [List.mem_insertionSort] at hv
      rcases List.mem_map.mp hv with ⟨r2, hr2, hvr⟩
      rw [← hvr]
      exact hc r2 hr2
    have e1 : quantileSorted (sortedVals df) (mkRat 1 4) = c :=
      quantileSorted_const _ _ _ hne hall (by decide) (by decide)
    have e3 : quantileSorted (sortedVals df) (mkRat 3 4) = c :=
      quantileSorted_const _ _ _ hne hall (by decide) (by decide)
    have hrc : r.valor = c := hc r hr
    constructor
    · show lowerBound df ≤ r.valor
      unfold lowerBound iqr q1 q3
      rw [e1, e3, hrc, qSub_eq, qMul_eq, qSub_eq]
      have : c - mkRat 3 2 * (c - c) = c := by ring
      rw [this]
    · show r.valor ≤ upperBound df
      unfold upperBound iqr q1 q3
      rw [e1, e3, hrc, qAdd_eq, qMul_eq, qSub_eq]
      have : c + mkRat 3 2 * (c - c) = c := by ring
      rw [this]

/-- C4 counterexample: on the five values 0, 1, 1, 1, 5 both quartiles equal
1, so `IQR = 0`, yet the rows with values 0 and 5 fall outside `[1, 1]` and
are flagged — a zero interquartile range does not give zero findings. -/
theorem C4_counterexample : iqr c4Tab = 0 ∧ outliers c4Tab ≠ [] := by
  decide

/-- C4 witness: the amended theorem applied to a two-row table. -/
theorem C4_outlier_degenerate_witness :
    c4wTab.length < 4 ∧ outliers c4wTab = [] :=
  ⟨by decide, C4_outlier_degenerate c4wTab (Or.inl (by decide))⟩

theorem mem_dropWhile_not (p : Char → Bool) (c : Char) (hc : p c = false) :
    ∀ l : List Char, c ∈ l → c ∈ l.dropWhile p := by
  intro l
  induction l with
  | nil => exact fun h => h
  | cons a t ih =>
    intro h
    by_cases hp : p a = true
    · rw [List.dropWhile_cons, if_pos hp]
      rcases List.mem_cons.mp h with h1 | h2
      · rw [h1] at hc
        rw [hc] at hp
        cases hp
      · exact ih h2
    · rw [List.dropWhile_cons, if_neg hp]
      exact h

theorem mem_trimChars (c : Char) (hc : isSpace c = false) (l : List Char) (h : c ∈ l) :
    c ∈ trimChars l := by
  unfold trimChars
  rw [List.mem_reverse]
  apply mem_dropWhile_not _ _ hc
  rw [List.mem_reverse]
  exact mem_dropWhile_not _ _ hc _ h

theorem parseNumCore_mem (sgn : Int) (body : List Char) (q : ℚ)
    (hp : parseNumCore sgn body = some q) :
    ∀ ch ∈ body, ch = '.' ∨ ch.isDigit = true := by
  intro ch hch
  have hsplit := List.takeWhile_append_dropWhile Char.isDigit body
  rw [← hsplit] at hch
  rcases List.mem_append.mp hch with h1 | h2
  · exact Or.inr (List.mem_takeWhile_imp h1)
  · unfold parseNumCore at hp
    split at hp
    · rename_i heq
      rw [heq] at h2
      cases h2
    · rename_i fp heq
      rw [heq] at h2
      have hcond : (fp.all Char.isDigit
          && (!(body.takeWhile Char.isDigit).isEmpty || !fp.isEmpty)) = true := by
        by_contra hcf
        rw [if_neg hcf] at hp
        cases hp
      have hall : fp.all Char.isDigit = true := by
        simp only [Bool.and_eq_true] at hcond
        exact hcond.1
      rcases List.mem_cons.mp h2 with h3 | h4
      · exact Or.inl h3
      · exact Or.inr (List.all_eq_true.mp hall ch h4)
    · cases hp

theorem parseNumChars_mem (cs : List Char) (q : ℚ) (hp : parseNumChars cs = some q) :
    ∀ ch ∈ cs, ch = '-' ∨ ch = '+' ∨ ch = '.' ∨ ch.isDigit = true := by
  intro ch hch
  unfold parseNumChars at hp
  split at hp
  · rename_i r
    rcases List.mem_cons.mp hch with h1 | h2
    · exact Or.inl h1
    · rcases parseNumCore_mem _ _ _ hp ch h2 with h | h
      · exact Or.inr (Or.inr (Or.inl h))
      · exact Or.inr (Or.inr (Or.inr h))
  · rename_i r
    rcases List.mem_cons.mp hch with h1 | h2
    · exact Or.inr (Or.inl h1)
    · rcases parseNumCore_mem _ _ _ hp ch h2 with h | h
      · exact Or.inr (Or.inr (Or.inl h))
      · exact Or.inr (Or.inr (Or.inr h))
  · rcases parseNumCore_mem _ _ _ hp ch hch with h | h
    · exact Or.inr (Or.inr (Or.inl h))
    · exact Or.inr (Or.inr (Or.inr h))

theorem load_oneRow (dc vc : String) (ec vd : Option String) :
    load_data (oneRowTable dc vc ec vd) =
      Except.ok ((coerceRow 0 1 2 (some 3) [some dc, some vc, ec, vd]).toList) := by
  show Except.ok ([[some dc, some vc, ec, vd]].filterMap (coerceRow 0 1 2 (some 3)))
      = Except.ok ((coerceRow 0 1 2 (some 3) [some dc, some vc, ec, vd]).toList)
  rcases hc : coerceRow 0 1 2 (some 3) [some dc, some vc, ec, vd] with _ | r <;>
    simp [List.filterMap_cons, hc]

theorem load_oneRowNoVend (dc vc : String) (ec : Option String) :
    load_data (oneRowTableNoVend dc vc ec) =
      Except.ok ((coerceRow 0 1 2 none [some dc, some vc, ec]).toList) := by
  show Except.ok ([[some dc, some vc, ec]].filterMap (coerceRow 0 1 2 none))
      = Except.ok ((coerceRow 0 1 2 none [some dc, some vc, ec]).toList)
  rcases hc : coerceRow 0 1 2 none [some dc, some vc, ec] with _ | r <;>
    simp [List.filterMap_cons, hc]

/-- C5 (amended): value coercion performs no stripping — a parseable cell
consists only of an optional sign, digits and one dot, so a cell containing a
currency symbol is unparseable and its row is dropped by `load_data`, never
coerced to the underlying number. -/
theorem C5_currency_cells_dropped (v : String) (h : '$' ∈ v.data) :
    parseNum v = none ∧ load_data (currencyTable v) = Except.ok [] := by
  have hpn : parseNum v = none := by
    unfold parseNum
    rcases hq : parseNumChars (trimChars v.data) with _ | q
    · rfl
    · exfalso
      have hmem : '$' ∈ trimChars v.data := mem_trimChars _ (by decide) _ h
      rcases parseNumChars_mem _ _ hq '$' hmem with h1 | h1 | h1 | h1
      · exact absurd h1 (by decide)
      · exact absurd h1 (by decide)
      · exact absurd h1 (by decide)
      · exact absurd h1 (by decide)
  refine ⟨hpn, ?_⟩
  have hcoerce : coerceRow 0 1 2 (some 3) [some "2024-01-15", some v, some "Acme", some "Ana"]
      = none := by
    unfold coerceRow
    rw [show ([some "2024-01-15", some v, some "Acme", some "Ana"].getD 1 none) = some v
      from rfl]
    rw [show (some v).bind parseNum = parseNum v from rfl]
    rw [hpn]
    rfl
  unfold currencyTable
  rw [load_oneRow, hcoerce]
  rfl

/-- C5 counterexample: the currency-formatted cell `R$ 1.000,50` is dropped
(the clean table is empty), while the plain `1000.50` in the same position is
kept and coerced; no stripping of the currency format happens. -/
theorem C5_counterexample :
    load_data (currencyTable "R$ 1.000,50") = Except.ok [] ∧
      load_data (currencyTable "1000.50") =
        Except.ok [cleanRow ⟨2024, 1, 15⟩ (mkRat 2001 2) "Acme" (some "Ana")] := by
  decide

/-- C5 witness: the amended theorem applied to the cell `R$ 1.000,50`. -/
theorem C5_currency_cells_dropped_witness :
    ('$' ∈ "R$ 1.000,50".data) ∧ parseNum "R$ 1.000,50" = none ∧
      load_data (currencyTable "R$ 1.000,50") = Except.ok [] :=
  ⟨by decide, (C5_currency_cells_dropped _ (by decide)).1,
    (C5_currency_cells_dropped _ (by decide)).2⟩

theorem colIdx_eq_none (cols : List String) (n : String) :
    colIdx cols n = none ↔ n ∉ cols := by
  induction cols with
  | nil => simp [colIdx]
  | cons c cs ih =>
    by_cases hc : c = n
    · subst hc
      simp [colIdx]
    · have hmap : Option.map (fun i => i + 1) (colIdx cs n) = none ↔ colIdx cs n = none := by
        cases colIdx cs n <;> simp
      rw [show colIdx (c :: cs) n
          = if c = n then some 0 else (colIdx cs n).map (fun i => i + 1) from rfl,
        if_neg hc, hmap, ih, List.mem_cons]
      constructor
      · intro hn hor
        rcases hor with h1 | h2
        · exact hc h1.symm
        · exact hn h2
      · intro hn h2
        exact hn (Or.inr h2)

/-- C6 (amended): alias matching is exact string equality — not
case-insensitive, not whitespace-normalized — and company is in effect
also mandatory: when no column resolves to `data`, loading fails naming
`data`; when `data` resolves but `valor` does not, it fails naming `valor`;
when both resolve but `empresa` does not, it fails naming `empresa`.  No
table is produced in any failing case. -/
theorem C6_missing_mandatory (t : RawTable) :
    ("data" ∉ renameCols t.cols → load_data t = Except.error "data") ∧
      ("data" ∈ renameCols t.cols → "valor" ∉ renameCols t.cols →
        load_data t = Except.error "valor") ∧
      ("data" ∈ renameCols t.cols → "valor" ∈ renameCols t.cols →
        "empresa" ∉ renameCols t.cols → load_data t = Except.error "empresa") := by
  refine ⟨?_, ?_, ?_⟩
  · intro h
    unfold load_data
    rw [(colIdx_eq_none _ _).mpr h]
  · intro h1 h2
    unfold load_data
    rcases hE : colIdx (renameCols t.cols) "data" with _ | di
    · exact absurd ((colIdx_eq_none _ _).mp hE) (by simpa using h1)
    · rw [(colIdx_eq_none _ _).mpr h2]
  · intro h1 h2 h3
    unfold load_data
    rcases hE : colIdx (renameCols t.cols) "data" with _ | di
    · exact absurd ((colIdx_eq_none _ _).mp hE) (by simpa using h1)
    · rcases hF : colIdx (renameCols t.cols) "valor" with _ | vi
      · exact absurd ((colIdx_eq_none _ _).mp hF) (by simpa using h2)
      · rw [(colIdx_eq_none _ _).mpr h3]

/-- C6 counterexample: the column name `DATA` is a case variant of the
accepted aliases, but matching is exact, so loading fails with the `data`
error even though a case-insensitive match exists. -/
theorem C6_counterexample :
    ((c6Tab.cols.map lowerStr).contains "data" = true) ∧
      load_data c6Tab = Except.error "data" := by
  decide

/-- C6 witness: the amended theorem applied to a table with no date column. -/
theorem C6_missing_mandatory_witness :
    ("data" ∉ renameCols c6wTab.cols) ∧ load_data c6wTab = Except.error "data" :=
  ⟨by decide, (C6_missing_mandatory c6wTab).1 (by decide)⟩

/-- C7 (amended): the salesperson field is genuinely optional — an absent
salesperson column or cell never fails the load, never drops the row, and no
sentinel is substituted (the value simply stays missing) — but the company
field is not: a row whose company cell is missing is dropped alongside rows
failing date or value coercion. -/
theorem C7_company_mandatory_salesperson_optional (dc vc : String) (ec vd : Option String)
    (dv : Date) (qv : ℚ) (hd : parseDate dc = some dv) (hv : parseNum vc = some qv) :
    load_data (oneRowTable dc vc ec vd)
        = Except.ok (ec.elim [] (fun e => [cleanRow dv qv e vd])) ∧
      load_data (oneRowTableNoVend dc vc ec)
        = Except.ok (ec.elim [] (fun e => [cleanRow dv qv e none])) := by
  constructor
  · rw [load_oneRow]
    rcases ec with _ | e
    · have hc : coerceRow 0 1 2 (some 3) [some dc, some vc, none, vd] = none := by
        unfold coerceRow
        rw [show ([some dc, some vc, none, vd].getD 0 none) = some dc from rfl]
        rw [show (some dc).bind parseDate = parseDate dc from rfl, hd]
        rw [show ([some dc, some vc, none, vd].getD 1 none) = some vc from rfl]
        rw [show (some vc).bind parseNum = parseNum vc from rfl, hv]
        rfl
      rw [hc]
      rfl
    · have hc : coerceRow 0 1 2 (some 3) [some dc, some vc, some e, vd]
          = some (cleanRow dv qv e vd) := by
        unfold coerceRow
        rw [show ([some dc, some vc, some e, vd].getD 0 none) = some dc from rfl]
        rw [show (some dc).bind parseDate = parseDate dc from rfl, hd]
        rw [show ([some dc, some vc, some e, vd].getD 1 none) = some vc from rfl]
        rw [show (some vc).bind parseNum = parseNum vc from rfl, hv]
        rfl
      rw [hc]
      rfl
  · rw [load_oneRowNoVend]
    rcases ec with _ | e
    · have hc : coerceRow 0 1 2 none [some dc, some vc, none] = none := by
        unfold coerceRow
        rw [show ([some dc, some vc, none].getD 0 none) = some dc from rfl]
        rw [show (some dc).bind parseDate = parseDate dc from rfl, hd]
        rw [show ([some dc, some vc, none].getD 1 none) = some vc from rfl]
        rw [show (some vc).bind parseNum = parseNum vc from rfl, hv]
        rfl
      rw [hc]
      rfl
    · have hc : coerceRow 0 1 2 none [some dc, some vc, some e]
          = some (cleanRow dv qv e none) := by
        unfold coerceRow
        rw [show ([some dc, some vc, some e].getD 0 none) = some dc from rfl]
        rw [show (some dc).bind parseDate = parseDate dc from rfl, hd]
        rw [show ([some dc, some vc, some e].getD 1 none) = some vc from rfl]
        rw [show (some vc).bind parseNum = parseNum vc from rfl, hv]
        rfl
      rw [hc]
      rfl

/-- C7 counterexample: of two raw rows with valid dates and values, the one
with a missing company cell is dropped — rows are dropped for a missing
company, contrary to company being optional. -/
theorem C7_counterexample :
    c7Tab.rows.length = 2 ∧
      load_data c7Tab = Except.ok [cleanRow ⟨2024, 1, 15⟩ 1000 "Acme" (some "Ana")] := by
  decide

/-- C7 witness: the amended theorem applied to concrete cells, with both a
present and an absent company cell. -/
theorem C7_company_mandatory_salesperson_optional_witness :
    parseDate "2024-01-15" = some ⟨2024, 1, 15⟩ ∧
      parseNum "1500.5" = some (mkRat 3001 2) ∧
      load_data (oneRowTable "2024-01-15" "1500.5" (some "Acme") (some "Ana"))
        = Except.ok [cleanRow ⟨2024, 1, 15⟩ (mkRat 3001 2) "Acme" (some "Ana")] ∧
      load_data (oneRowTable "2024-01-15" "1500.5" none (some "Ana")) = Except.ok [] :=
  ⟨by decide, by decide,
    (C7_company_mandatory_salesperson_optional "2024-01-15" "1500.5" (some "Acme")
      (some "Ana") ⟨2024, 1, 15⟩ (mkRat 3001 2) (by decide) (by decide)).1,
    (C7_company_mandatory_salesperson_optional "2024-01-15" "1500.5" none
      (some "Ana") ⟨2024, 1, 15⟩ (mkRat 3001 2) (by decide) (by decide)).1⟩

/-- C8 (amended): for every row of a loaded table, the month label is the
4-digit year, a hyphen and the zero-padded month, and the year label is the
year string (4-digit for years from 1000); the quarter label, however, is the
year directly followed by `Q` and the quarter number, with no hyphen. -/
theorem C8_period_labels (t : RawTable) (ct : List Row) (h : load_data t = Except.ok ct) :
    ∀ r ∈ ct, r.mes = specMonthLabel r.data ∧
      r.trimestre = pad4 r.data.y ++ "Q" ++ Nat.repr (quarterNum r.data.m) ∧
      (1000 ≤ r.data.y → r.ano = specYearLabel r.data) := by
  intro r hr
  unfold load_data at h
  rcases hE : colIdx (renameCols t.cols) "data" with _ | di <;> rw [hE] at h
  · cases h
  rcases hF : colIdx (renameCols t.cols) "valor" with _ | vi <;> rw [hF] at h
  · cases h
  rcases hG : colIdx (renameCols t.cols) "empresa" with _ | ei <;> rw [hG] at h
  · cases h
  have hct : ct = t.rows.filterMap (coerceRow di vi ei (colIdx (renameCols t.cols) "vendedor")) :=
    (Except.ok.inj h).symm
  rw [hct] at hr
  rcases List.mem_filterMap.mp hr with ⟨raw, _, hraw⟩
  unfold coerceRow at hraw
  split at hraw
  · rename_i dt v emp heq1 heq2 heq3
    injection hraw with hinj
    subst hinj
    refine ⟨rfl, rfl, ?_⟩
    intro hy
    have hy2 : 1000 ≤ dt.y := hy
    show anoLabel dt = specYearLabel dt
    unfold anoLabel specYearLabel pad4
    rw [if_neg (by omega), if_neg (by omega), if_neg (by omega)]
  · cases hraw

/-- C8 counterexample: the quarter label of the row loaded from a
2024-01-15 date is `2024Q1`, not the spec's `2024-Q1` — the label has no
hyphen before the `Q`. -/
theorem C8_counterexample :
    load_data c8Tab = Except.ok [c8Row] ∧ c8Row.trimestre = "2024Q1" ∧
      specQuarterLabel c8Row.data = "2024-Q1" ∧
      c8Row.trimestre ≠ specQuarterLabel c8Row.data := by
  decide

/-- C8 witness: the amended theorem applied to the table loaded from
`c8Tab`. -/
theorem C8_period_labels_witness :
    load_data c8Tab = Except.ok [c8Row] ∧
      (∀ r ∈ [c8Row], r.mes = specMonthLabel r.data ∧
        r.trimestre = pad4 r.data.y ++ "Q" ++ Nat.repr (quarterNum r.data.m) ∧
        (1000 ≤ r.data.y → r.ano = specYearLabel r.data)) :=
  ⟨by decide, C8_period_labels c8Tab [c8Row] (by decide)⟩

end Analise
